import Mathlib

/-!
Shallow embedding of the chunked weight-encryption relay
(Weights_encryption: client.c, pb_to_uart.c/h, encrypt.c).

Pure data and state-passing translations of the C sources:
machine integers are Nat with explicit mod where overflow matters,
global mutable state is threaded explicitly, and the interrupt-driven
parts are modelled as an event-step transition system whose events are
the two completion callbacks and the two cooperative poll functions.
-/

namespace WeightsEncryption

/-! ## Message and status types (message.pb.h is generated and absent;
the enum and field layout are modelled from the spec). -/

/-- Modelled from the spec: the RawData status enum
STATUS_FIRST_CHUNK, STATUS_MIDDLE_CHUNK, STATUS_LAST_CHUNK (the
generated message.pb.h is not in the repository snapshot). -/
inductive RDStatus where
  | FIRST_CHUNK
  | MIDDLE_CHUNK
  | LAST_CHUNK
  deriving DecidableEq, Repr

/-- Modelled from the spec: numeric values of the status enum in
declaration order (proto3 enums start at 0). -/
def RDStatus.val : RDStatus → Nat
  | .FIRST_CHUNK => 0
  | .MIDDLE_CHUNK => 1
  | .LAST_CHUNK => 2

/-- The decoded RawData payload: status, chunk number, base address and
the data bytes (data.size is the length of the byte list). -/
structure RawDataMsg where
  stat : RDStatus
  chunk_no : Nat
  base_address : Nat
  data : List Nat
  deriving DecidableEq, Repr

/-- The decoded EncryptionParams payload: four 32-bit key words
(written by the streaming decode callback) and the round count. -/
structure EncryptionParamsMsg where
  keys : List Nat
  nb_rounds : Nat
  deriving DecidableEq, Repr

/-! ## pb_to_uart.h constants -/

/-- MULTIPLE_TT(a) = ((a/32)+1)*32 from pb_to_uart.h. -/
def MULTIPLE_TT (a : Nat) : Nat := (a / 32 + 1) * 32

/-- I_STREAM_SIZE_BYTES = MULTIPLE_TT(4111): receive buffer capacity. -/
def I_STREAM_SIZE_BYTES : Nat := MULTIPLE_TT 4111

/-- O_STREAM_SIZE_BYTES = MULTIPLE_TT(4111): transmit buffer capacity. -/
def O_STREAM_SIZE_BYTES : Nat := MULTIPLE_TT 4111

/-! ## encrypt.c: key installation and the hardware cipher configuration -/

/-- LS32_MASK32_MSB(x) = (((uint64_t)x<<32) & 0xFFFFFFFF00000000):
the shift of a uint32_t into a uint64_t, truncated to 64 bits. -/
def LS32_MASK32_MSB (x : Nat) : Nat :=
  (x * 2 ^ 32 % 2 ^ 64) &&& 0xFFFFFFFF00000000

/-- MASK32_LSB(x) = ((uint64_t)x & 0x00000000FFFFFFFF). -/
def MASK32_LSB (x : Nat) : Nat := x &&& 0xFFFFFFFF

/-- CONCAT_KEYS(x,y) = LS32_MASK32_MSB(x) | MASK32_LSB(y). -/
def CONCAT_KEYS (x y : Nat) : Nat := LS32_MASK32_MSB x ||| MASK32_LSB y

/-- The static cipher session state of encrypt.c: s_keys[2] and
s_nbrounds. -/
structure EncState where
  s_keys0 : Nat
  s_keys1 : Nat
  s_nbrounds : Nat
  deriving DecidableEq, Repr

/-- encrypt_set_keys_and_round: s_keys[0] = CONCAT_KEYS(keys[1],keys[0]),
s_keys[1] = CONCAT_KEYS(keys[3],keys[2]), s_nbrounds = round_nb. -/
def encrypt_set_keys_and_round (keys : List Nat) (round_nb : Nat) : EncState :=
  { s_keys0 := CONCAT_KEYS (keys.getD 1 0) (keys.getD 0 0)
    s_keys1 := CONCAT_KEYS (keys.getD 3 0) (keys.getD 2 0)
    s_nbrounds := round_nb }

/-- The LL_Cypher_InitTypeDef fields programmed by encrypt_encrypt. -/
structure CypherConfig where
  srcAdd : Nat
  dstAdd : Nat
  len : Nat
  busIfKeyLsb : Nat
  busIfKeyMsb : Nat
  deriving DecidableEq, Repr

/-- The configuration encrypt_encrypt programs into the hardware unit:
len_aligned = ((len / 8) + 1) * 8, source = src, destination =
real_life_address, key halves from the session state. -/
def encrypt_encrypt_cypherConfig (st : EncState) (src real_life_address len : Nat) :
    CypherConfig :=
  { srcAdd := src
    dstAdd := real_life_address
    len := (len / 8 + 1) * 8
    busIfKeyLsb := st.s_keys0
    busIfKeyMsb := st.s_keys1 }

/-! ## client.c data model -/

/-- The four pipeline flags of struct _epd (encryption_pipeline_desc). -/
structure EPDesc where
  rx_ready : Bool
  processing_done : Bool
  rx_shadow_buffer_ready : Bool
  tx_shadow_buffer_ready : Bool
  deriving DecidableEq, Repr

/-- enum _current_cmd from client.c. -/
inductive CurrentCmd where
  | NONE
  | ENCRYPT
  | SET_KEYS
  deriving DecidableEq, Repr

/-- uart_cf_t: the transport flow-control flags rtr and rts. -/
structure UartCf where
  rtr : Bool
  rts : Bool
  deriving DecidableEq, Repr

/-- encryption_chunk_t: chunk metadata plus the bytes its data_ptr
designates (the receive-shadow buffer contents at staging time). -/
structure EncChunk where
  chunk_no : Nat
  base_addr : Nat
  chunk_size : Nat
  is_last : Bool
  data : List Nat
  deriving DecidableEq, Repr

/-- encryption_params_t: the enc_p global. -/
structure EncParams where
  encryption_keys : List Nat
  encryption_rounds : Nat
  deriving DecidableEq, Repr

/-- The mutable state of client.c threaded through its functions. -/
structure ClientState where
  epd : EPDesc
  current_cmd : CurrentCmd
  rx_msg : RawDataMsg
  tx_msg : RawDataMsg
  enc_p : EncParams
  encst : EncState
  buffered_chunk : EncChunk
  current_chunk : EncChunk
  rx_buffered : List Nat
  tx_buffered : List Nat
  deriving DecidableEq, Repr

/-- Client state together with the transport flow-control flags
(uart_status is shared between client.c and pb_to_uart.c). -/
structure CU where
  c : ClientState
  u : UartCf
  deriving DecidableEq, Repr

/-- Observable actions of the relay: sent messages, stage-body
executions, the pipeline-drained LED-off signal, and armed DMA
receives. -/
inductive Obs where
  | ackSent
  | rawDataSent (stat : RDStatus) (chunk_no base_address size : Nat) (bytes : List Nat)
  | stageRun
  | dispatchRun
  | completeRun
  | drained
  | armReceive (len : Nat)
  deriving DecidableEq, Repr

/-- A hardware cipher abstraction: from the staged source bytes, the
transfer length and the real destination address to the bytes read
back into the destination buffer (encrypt_encrypt's observable effect
on tx_buffered_raw_data.buffer). -/
def Cipher : Type := List Nat → Nat → Nat → List Nat

/-- The zero-initialized chunk descriptor (memset 0). -/
def initChunk : EncChunk :=
  { chunk_no := 0, base_addr := 0, chunk_size := 0, is_last := false, data := [] }

/-- A zero-initialized message payload (stat 0 = FIRST_CHUNK). -/
def initRawMsg : RawDataMsg :=
  { stat := .FIRST_CHUNK, chunk_no := 0, base_address := 0, data := [] }

/-- Client state after init_pb (flags per init_pb, commands zeroed;
current_cmd is a zero-initialized static, i.e. NONE). -/
def initClient : ClientState :=
  { epd := { rx_ready := false, processing_done := false
             rx_shadow_buffer_ready := true, tx_shadow_buffer_ready := true }
    current_cmd := .NONE
    rx_msg := initRawMsg
    tx_msg := initRawMsg
    enc_p := { encryption_keys := [0, 0, 0, 0], encryption_rounds := 0 }
    encst := { s_keys0 := 0, s_keys1 := 0, s_nbrounds := 0 }
    buffered_chunk := initChunk
    current_chunk := initChunk
    rx_buffered := []
    tx_buffered := [] }

/-! ## client.c: the encryption pipeline tick, one phase per guarded
if-block of process_encryption -/

/-- First if-block of process_encryption (Stage): under
rx_ready && rx_shadow_buffer_ready, copy the decoded payload to the
receive-shadow buffer, build buffered_chunk from the message metadata,
clear rx_ready and rx_shadow_buffer_ready, assert rtr. -/
def stagePhase (s : CU) : CU × List Obs :=
  if s.c.epd.rx_ready && s.c.epd.rx_shadow_buffer_ready then
    let size := s.c.rx_msg.data.length
    let rxb := s.c.rx_msg.data
    let bc : EncChunk :=
      { chunk_no := s.c.rx_msg.chunk_no
        chunk_size := size
        data := rxb
        base_addr := s.c.rx_msg.base_address
        is_last := if s.c.rx_msg.stat = RDStatus.LAST_CHUNK then true else false }
    ({ c := { s.c with
                rx_buffered := rxb
                buffered_chunk := bc
                epd := { s.c.epd with rx_ready := false, rx_shadow_buffer_ready := false } }
       u := { s.u with rtr := true } },
     [Obs.stageRun])
  else (s, [])

/-- uart_write_packet: transmits the 4-byte length header (blocking)
then the payload by DMA and clears rts. Only the rts effect is
state-visible here. -/
def uart_write_packet (u : UartCf) : UartCf := { u with rts := false }

/-- send_ack: encode an Ack into the output stream and hand it to
uart_write_packet. -/
def send_ack (u : UartCf) : UartCf × List Obs :=
  (uart_write_packet u, [Obs.ackSent])

/-- send_raw_data: set the outbound RawData size, chunk_no and
base_address from current_chunk, encode tx_msg and hand it to
uart_write_packet. -/
def send_raw_data (s : CU) : CU × List Obs :=
  let tx := { s.c.tx_msg with
                chunk_no := s.c.current_chunk.chunk_no
                base_address := s.c.current_chunk.base_addr }
  ({ c := { s.c with tx_msg := tx }, u := uart_write_packet s.u },
   [Obs.rawDataSent tx.stat tx.chunk_no tx.base_address
      s.c.current_chunk.chunk_size tx.data])

/-- Second if-block of process_encryption (Dispatch-to-hardware): under
!rx_shadow_buffer_ready && tx_shadow_buffer_ready && rts, send an Ack,
promote buffered_chunk to current_chunk, clear tx_shadow_buffer_ready
and processing_done, run the blocking cipher, then set
processing_done. -/
def dispatchPhase (E : Cipher) (s : CU) : CU × List Obs :=
  if !s.c.epd.rx_shadow_buffer_ready && s.c.epd.tx_shadow_buffer_ready && s.u.rts then
    let cur := s.c.buffered_chunk
    let txb := E cur.data cur.chunk_size cur.base_addr
    ({ c := { s.c with
                current_chunk := cur
                tx_buffered := txb
                epd := { s.c.epd with
                           tx_shadow_buffer_ready := false
                           processing_done := true } }
       u := (send_ack s.u).1 },
     (send_ack s.u).2 ++ [Obs.dispatchRun])
  else (s, [])

/-- Third if-block of process_encryption (Complete): under
processing_done && rts, set rx_shadow_buffer_ready, clear
processing_done, copy chunk_size encrypted bytes into the outbound
message buffer, set tx_shadow_buffer_ready, transmit the RawData
result; if current_chunk.is_last, switch the LEDs off. -/
def completePhase (s : CU) : CU × List Obs :=
  if s.c.epd.processing_done && s.u.rts then
    let bytes := s.c.tx_buffered.take s.c.current_chunk.chunk_size
    let s1 : CU :=
      { c := { s.c with
                 tx_msg := { s.c.tx_msg with data := bytes }
                 epd := { s.c.epd with
                            rx_shadow_buffer_ready := true
                            processing_done := false
                            tx_shadow_buffer_ready := true } }
        u := s.u }
    ((send_raw_data s1).1,
     Obs.completeRun :: (send_raw_data s1).2 ++
       (if s.c.current_chunk.is_last then [Obs.drained] else []))
  else (s, [])

/-- process_encryption: early return unless current_cmd == ENCRYPT,
then the three guarded stage bodies in the fixed textual order
Stage, Dispatch-to-hardware, Complete. -/
def process_encryption (E : Cipher) (s : CU) : CU × List Obs :=
  if s.c.current_cmd ≠ CurrentCmd.ENCRYPT then (s, [])
  else
    let s1 := (stagePhase s).1
    let s2 := (dispatchPhase E s1).1
    ((completePhase s2).1,
     (stagePhase s).2 ++ (dispatchPhase E s1).2 ++ (completePhase s2).2)

/-! ## client.c: the command dispatcher client_parse_msg -/

/-- The outcome of pb_decode on the received frame: failure, or a
decoded message with one active payload variant (the default switch
case covers any other which_payload value). -/
inductive Decoded where
  | fail
  | encParams (p : EncryptionParamsMsg)
  | rawData (r : RawDataMsg)
  | other
  deriving DecidableEq, Repr

/-- client_parse_msg on the decode outcome of the frame in the receive
buffer: on failure, print and return (no state change); on
EncryptionParams, install keys (written by the decode callback into
enc_p.encryption_keys) and rounds, send an Ack, set current_cmd NONE;
on RawData, set rx_ready and current_cmd ENCRYPT, deferring processing
to the pipeline; otherwise set current_cmd NONE. -/
def client_parse_msg (d : Decoded) (s : CU) : CU × List Obs :=
  match d with
  | .fail => (s, [])
  | .encParams p =>
      let encp : EncParams :=
        { encryption_keys := p.keys, encryption_rounds := p.nb_rounds }
      let st := encrypt_set_keys_and_round encp.encryption_keys encp.encryption_rounds
      let (u1, e1) := send_ack s.u
      ({ c := { s.c with enc_p := encp, encst := st, current_cmd := .NONE }
         u := u1 }, e1)
  | .rawData r =>
      ({ c := { s.c with
                  rx_msg := r
                  epd := { s.c.epd with rx_ready := true }
                  current_cmd := .ENCRYPT }
         u := s.u }, [])
  | .other =>
      ({ c := { s.c with current_cmd := .NONE }, u := s.u }, [])

/-! ## pb_to_uart.c: framing layer state and poll functions -/

/-- struct xfer_status from pb_to_uart.c. -/
structure XferStatus where
  receiving_len : Bool
  receiving_pb : Bool
  dma_complete : Bool
  command_ready : Bool
  xfer_len : Nat
  deriving DecidableEq, Repr

/-- The whole relay state: client.c globals, uart_status, and the
framing-layer transfer status. -/
structure Sys where
  c : ClientState
  u : UartCf
  rx : XferStatus
  deriving DecidableEq, Repr

/-- HAL_UART_RxCpltCallback: a DMA receive completed; set dma_complete
and clear rtr. -/
def rxCpltCallback (s : Sys) : Sys :=
  { s with rx := { s.rx with dma_complete := true }, u := { s.u with rtr := false } }

/-- HAL_UART_TxCpltCallback: the DMA transmit completed; set rts. -/
def txCpltCallback (s : Sys) : Sys :=
  { s with u := { s.u with rts := true } }

/-- handle_uart: if a DMA transfer completed, either read the 4-byte
length header (the value in the input buffer, passed as argument) and
arm a receive of that many bytes, or mark the received frame ready for
parsing and arm the next 4-byte length receive; in both cases clear
rtr, and finally clear dma_complete. -/
def handle_uart (header : Nat) (s : Sys) : Sys × List Obs :=
  if s.rx.dma_complete then
    if s.rx.receiving_len then
      ({ s with
           rx := { s.rx with
                     xfer_len := header
                     receiving_len := false
                     receiving_pb := true
                     dma_complete := false }
           u := { s.u with rtr := false } },
       [Obs.armReceive header])
    else if s.rx.receiving_pb then
      ({ s with
           rx := { s.rx with
                     command_ready := true
                     receiving_pb := false
                     receiving_len := true
                     dma_complete := false }
           u := { s.u with rtr := false } },
       [Obs.armReceive 4])
    else ({ s with rx := { s.rx with dma_complete := false } }, [])
  else (s, [])

/-- handle_commands: parse the pending frame when command_ready (the
decode outcome is the event's payload), clear command_ready, then run
one tick of the encryption pipeline. -/
def handle_commands (E : Cipher) (d : Decoded) (s : Sys) : Sys × List Obs :=
  let s1 : Sys × List Obs :=
    if s.rx.command_ready then
      ({ s with
           c := (client_parse_msg d { c := s.c, u := s.u }).1.c
           u := (client_parse_msg d { c := s.c, u := s.u }).1.u
           rx := { s.rx with command_ready := false } },
       (client_parse_msg d { c := s.c, u := s.u }).2)
    else (s, [])
  let cu2 := process_encryption E { c := s1.1.c, u := s1.1.u }
  ({ s1.1 with c := cu2.1.c, u := cu2.1.u }, s1.2 ++ cu2.2)

/-- System state after init_uart_pb, init_pb and client_rx_command_len
(the startup arms the first 4-byte length receive). -/
def initSys : Sys :=
  { c := initClient
    u := { rtr := true, rts := true }
    rx := { receiving_len := true, receiving_pb := false
            dma_complete := false, command_ready := false, xfer_len := 0 } }

/-- The asynchronous events of the relay: the two completion
interrupts and the two cooperatively polled functions, with the data
each one consumes from the outside world. -/
inductive Ev where
  | rxc
  | txc
  | hu (header : Nat)
  | hc (d : Decoded)
  deriving DecidableEq, Repr

/-- One event step of the relay. -/
def stepEv (E : Cipher) : Ev → Sys → Sys × List Obs
  | .rxc, s => (rxCpltCallback s, [])
  | .txc, s => (txCpltCallback s, [])
  | .hu header, s => handle_uart header s
  | .hc d, s => handle_commands E d s

/-- Run a list of events from a state, accumulating observations. -/
def runEvs (E : Cipher) : List Ev → Sys → Sys × List Obs
  | [], s => (s, [])
  | e :: es, s =>
      let (s1, o1) := stepEv E e s
      let (s2, o2) := runEvs E es s1
      (s2, o1 ++ o2)

/-- Reachability of a relay state from startup under any event
interleaving. -/
inductive Reachable (E : Cipher) : Sys → Prop where
  | refl : Reachable E initSys
  | step (e : Ev) {s : Sys} : Reachable E s → Reachable E (stepEv E e s).1

/-- States produced by running an event list from a reachable state
are reachable. -/
theorem reachable_runEvs (E : Cipher) (evs : List Ev) (s : Sys)
    (h : Reachable E s) : Reachable E (runEvs E evs s).1 := by
  induction evs generalizing s with
  | nil => simpa [runEvs] using h
  | cons e es ih =>
      simpa [runEvs] using ih (stepEv E e s).1 (Reachable.step e h)

/-- The identity cipher, a concrete Cipher instance used to build
explicit runs. -/
def cipherId : Cipher := fun d _ _ => d

/-! ## client.c: the low-level RawData encoder client_send_raw_data -/

/-- Protobuf wire types as used in client_send_raw_data:
PB_WT_VARINT, PB_WT_32BIT, PB_WT_STRING. -/
inductive WireType where
  | VARINT
  | B32
  | STRING
  deriving DecidableEq, Repr

/-- One primitive write into the output stream: a tag-and-wire-type
prefix, a varint value, a fixed 32-bit value, or a length-prefixed
byte string. -/
inductive FieldOp where
  | tag (wt : WireType) (fieldNum : Nat)
  | varint (v : Nat)
  | fixed32 (v : Nat)
  | str (bytes : List Nat)
  deriving DecidableEq, Repr

/-- Modelled from the spec: the RawData field number of status, first
of the fields listed in the fixed order status, chunk_no,
base_address, data (message.pb.h is generated and absent). -/
def RawData_stat_tag : Nat := 1

/-- Modelled from the spec: the RawData field number of chunk_no. -/
def RawData_chunk_no_tag : Nat := 2

/-- Modelled from the spec: the RawData field number of base_address. -/
def RawData_base_address_tag : Nat := 3

/-- Modelled from the spec: the RawData field number of data. -/
def RawData_data_tag : Nat := 4

/-- client_send_raw_data: the sequence of encode calls it performs on
the output stream, in program order. The status argument is a status
enum value; ptr stands for the bufsize payload bytes. -/
def client_send_raw_data (status chunk_no : Nat) (ptr : List Nat) : List FieldOp :=
  let _ := status
  [ FieldOp.tag WireType.VARINT RawData_stat_tag,
    FieldOp.varint RDStatus.FIRST_CHUNK.val,
    FieldOp.tag WireType.B32 RawData_chunk_no_tag,
    FieldOp.fixed32 chunk_no,
    FieldOp.tag WireType.STRING RawData_data_tag,
    FieldOp.str ptr ]

/-- Whether a stream write is a tag prefix naming the given field. -/
def mentionsField (f : Nat) : FieldOp → Bool
  | .tag _ g => g = f
  | _ => false

/-! ## Concrete frames and event lists used in counterexample runs -/

/-- A middle chunk number 0 at base address 4096 with 8 data bytes. -/
def rawA : RawDataMsg :=
  { stat := .MIDDLE_CHUNK, chunk_no := 0, base_address := 4096
    data := [1, 2, 3, 4, 5, 6, 7, 8] }

/-- A middle chunk number 1 at base address 8192 with 8 data bytes. -/
def rawB : RawDataMsg :=
  { stat := .MIDDLE_CHUNK, chunk_no := 1, base_address := 8192
    data := [9, 10, 11, 12, 13, 14, 15, 16] }

/-- A LAST_CHUNK frame, chunk number 2 at base address 4096. -/
def rawL : RawDataMsg :=
  { stat := .LAST_CHUNK, chunk_no := 2, base_address := 4096
    data := [1, 2, 3, 4] }

/-- A further middle chunk sent after the last one, chunk number 3. -/
def rawM : RawDataMsg :=
  { stat := .MIDDLE_CHUNK, chunk_no := 3, base_address := 16
    data := [7, 7] }

/-- Event run: receive and parse chunk rawA (staged and dispatched, ack
clears rts), receive and parse chunk rawB while the shadow buffers are
busy, let the ack transmit complete, tick so that Complete runs for
rawA, then a length header for a third frame completes while the tick
that stages rawB runs before handle_uart polls the completion. -/
def evsC6 : List Ev :=
  [.rxc, .hu 10, .rxc, .hu 0, .hc (.rawData rawA),
   .rxc, .hu 20, .rxc, .hu 0, .hc (.rawData rawB),
   .txc, .hc .fail, .rxc, .hc .fail]

/-- The reachable state exhibited against claim C6. -/
def sysC6 : Sys := (runEvs cipherId evsC6 initSys).1

/-- Event run: chunks rawA and rawB as in evsC6, ack-transmit
completion, a tick in which Complete finishes rawA, then the transmit
completion of the result frame. -/
def evsC1 : List Ev :=
  [.rxc, .hu 10, .rxc, .hu 0, .hc (.rawData rawA),
   .rxc, .hu 20, .rxc, .hu 0, .hc (.rawData rawB),
   .txc, .hc .fail, .txc]

/-- The reachable state exhibited against claim C1: rawB decoded and
pending (rx_ready), both shadow buffers free, rts set. -/
def sysC1 : Sys := (runEvs cipherId evsC1 initSys).1

/-- Event run up to the completion of the LAST_CHUNK frame rawL: the
final tick emits the result frame and the drained signal. -/
def evsC8a : List Ev :=
  [.rxc, .hu 10, .rxc, .hu 0, .hc (.rawData rawL),
   .txc, .hc .fail]

/-- The state right after the pipeline drained signal. -/
def sysC8 : Sys := (runEvs cipherId evsC8a initSys).1

/-- Event run continuing evsC8a: a further RawData frame rawM arrives
and is parsed, with no EncryptionParams message and no reset in
between. -/
def evsC8b : List Ev :=
  [.rxc, .hu 12, .rxc, .hu 0, .txc, .hc (.rawData rawM)]

/-- Event run: chunk rawA is received and enters the pipeline, then a
second frame arrives whose decoding fails. -/
def evsC5 : List Ev :=
  [.rxc, .hu 10, .rxc, .hu 0, .hc (.rawData rawA),
   .rxc, .hu 4, .rxc, .hu 0]

/-- The reachable state just before the dispatcher parses the frame
whose decoding fails: current_cmd is ENCRYPT. -/
def sysC5 : Sys := (runEvs cipherId evsC5 initSys).1

/-! ## Helper lemmas -/

/-- Conjoining with the high 32-bit mask keeps a value that lives in
the high 32-bit half. -/
theorem and_mask_high {x : Nat} (hx : x < 2 ^ 32) :
    x * 2 ^ 32 &&& 0xFFFFFFFF00000000 = x * 2 ^ 32 := by
  have hm : (0xFFFFFFFF00000000 : Nat) = (2 ^ 32 - 1) * 2 ^ 32 := by norm_num
  apply Nat.eq_of_testBit_eq
  intro i
  rw [Nat.testBit_and, hm, ← Nat.shiftLeft_eq, ← Nat.shiftLeft_eq,
      Nat.testBit_shiftLeft, Nat.testBit_shiftLeft,
      Nat.testBit_two_pow_sub_one]
  rcases Nat.lt_or_ge i 32 with h32 | h32
  · simp [Nat.not_le_of_lt h32]
  · rcases Nat.lt_or_ge (i - 32) 32 with hlt | hge
    · simp [h32, hlt]
    · have hz : x.testBit (i - 32) = false :=
        Nat.testBit_lt_two_pow
          (lt_of_lt_of_le hx (Nat.pow_le_pow_right (by norm_num) hge))
      simp [hz]

/-- CONCAT_KEYS places its first argument in the high 32 bits and its
second in the low 32 bits. -/
theorem concat_keys_eq {x y : Nat} (hx : x < 2 ^ 32) (hy : y < 2 ^ 32) :
    CONCAT_KEYS x y = x * 2 ^ 32 + y := by
  unfold CONCAT_KEYS MASK32_LSB LS32_MASK32_MSB
  have hpow : (2 : Nat) ^ 64 = 2 ^ 32 * 2 ^ 32 := by norm_num
  have hlt : x * 2 ^ 32 < 2 ^ 64 := by
    rw [hpow]
    exact mul_lt_mul_of_pos_right hx (by positivity)
  have hy32 : (0xFFFFFFFF : Nat) = 2 ^ 32 - 1 := by norm_num
  rw [Nat.mod_eq_of_lt hlt, and_mask_high hx, hy32,
      Nat.and_pow_two_sub_one_of_lt_two_pow hy, mul_comm,
      ← Nat.mul_add_lt_is_or hy, mul_comm]

/-! ## Claim theorems -/

/-- C7 counterexample: for the call length 8 — already a multiple of
8 — encrypt_encrypt programs hardware transfer length 16, not 8, so
the programmed length is not the claimed round-up of len. -/
theorem encrypt_len8_programs_16 :
    (encrypt_encrypt_cypherConfig { s_keys0 := 0, s_keys1 := 0, s_nbrounds := 0 }
        0 0 8).len = 16 ∧ (16 : Nat) ≠ 8 := by
  constructor
  · rfl
  · decide

/-- C7 (amended): for every cipher invocation, the programmed hardware
transfer length is ((len / 8) + 1) * 8 = 8 * (len / 8) + 8 — a multiple
of 8 that is strictly greater than len; it equals the round-up of len
to the next multiple of 8 when len is not a multiple of 8, and equals
len + 8 when len already is one. -/
theorem encrypt_hw_length (st : EncState) (src real_life_address len : Nat) :
    (encrypt_encrypt_cypherConfig st src real_life_address len).len
        = 8 * (len / 8) + 8 ∧
      8 ∣ (encrypt_encrypt_cypherConfig st src real_life_address len).len ∧
      len < (encrypt_encrypt_cypherConfig st src real_life_address len).len := by
  unfold encrypt_encrypt_cypherConfig
  refine ⟨by ring, ⟨len / 8 + 1, by ring⟩, ?_⟩
  have h := Nat.div_mul_le_self len 8
  have h2 := Nat.mod_lt len (show 0 < 8 by norm_num)
  have h3 := Nat.div_add_mod len 8
  simp only
  omega

/-- C9 counterexample: encoding a RawData with status LAST_CHUNK emits
the varint for STATUS_FIRST_CHUNK (0), not the status being encoded
(2), and emits no base_address field at all. -/
theorem send_raw_data_wrong_status_no_base_address :
    client_send_raw_data RDStatus.LAST_CHUNK.val 7 [9, 9]
        = [FieldOp.tag WireType.VARINT RawData_stat_tag,
           FieldOp.varint 0,
           FieldOp.tag WireType.B32 RawData_chunk_no_tag,
           FieldOp.fixed32 7,
           FieldOp.tag WireType.STRING RawData_data_tag,
           FieldOp.str [9, 9]] ∧
      RDStatus.LAST_CHUNK.val ≠ 0 ∧
      (client_send_raw_data RDStatus.LAST_CHUNK.val 7 [9, 9]).any
          (mentionsField RawData_base_address_tag) = false := by
  refine ⟨rfl, by decide, by decide⟩

/-- C9 (amended): client_send_raw_data writes tag-and-wire-type
prefixed fields in the fixed order status (varint), chunk_no
(fixed 32-bit), data (length-prefixed bytes); the base_address field
is not encoded, and the status field always carries
STATUS_FIRST_CHUNK, regardless of the status argument. -/
theorem client_send_raw_data_ops (status chunk_no : Nat) (ptr : List Nat) :
    client_send_raw_data status chunk_no ptr
      = [FieldOp.tag WireType.VARINT RawData_stat_tag,
         FieldOp.varint RDStatus.FIRST_CHUNK.val,
         FieldOp.tag WireType.B32 RawData_chunk_no_tag,
         FieldOp.fixed32 chunk_no,
         FieldOp.tag WireType.STRING RawData_data_tag,
         FieldOp.str ptr] := rfl

/-- C5 counterexample: a reachable state with current_cmd = ENCRYPT in
which the next frame fails to decode; client_parse_msg returns with
current_cmd still ENCRYPT, not NONE as claimed. -/
theorem decode_failure_keeps_current_cmd :
    sysC5.rx.command_ready = true ∧
      sysC5.c.current_cmd = CurrentCmd.ENCRYPT ∧
      (client_parse_msg Decoded.fail { c := sysC5.c, u := sysC5.u }).1.c.current_cmd
          = CurrentCmd.ENCRYPT ∧
      CurrentCmd.ENCRYPT ≠ CurrentCmd.NONE := by
  refine ⟨by decide, by decide, by decide, by decide⟩

/-- C5 (amended): on a decode failure the dispatcher discards the
frame and sends no message, and returns early leaving the whole client
state — in particular current_cmd — unchanged. -/
theorem client_parse_msg_fail_no_change (s : CU) :
    client_parse_msg Decoded.fail s = (s, []) := rfl

/-- C10: the Complete body clears processing_done, and a tick from the
post-Complete flag state (no newly decoded chunk, shadow buffers free,
nothing processing) is a no-op: no message is transmitted and the
state — in particular every pipeline flag — is unchanged, whatever rts
is. -/
theorem result_frame_sent_at_most_once (E : Cipher) (s : CU) :
    (s.c.epd.processing_done = true → s.u.rts = true →
        (completePhase s).1.c.epd.processing_done = false) ∧
      (s.c.epd.rx_ready = false → s.c.epd.processing_done = false →
        s.c.epd.rx_shadow_buffer_ready = true →
        process_encryption E s = (s, [])) := by
  constructor
  · intro h1 h2
    simp [completePhase, h1, h2, send_raw_data, uart_write_packet]
  · intro h1 h2 h3
    unfold process_encryption stagePhase dispatchPhase completePhase
    simp [h1, h2, h3]

/-- C10 witness: the pipeline state right after a Complete (shadow
buffers free, nothing pending, rts back up) ticks to itself with no
output. -/
theorem result_frame_sent_at_most_once_w :
    process_encryption cipherId
        { c := { initClient with current_cmd := CurrentCmd.ENCRYPT }
          u := { rtr := false, rts := true } }
      = ({ c := { initClient with current_cmd := CurrentCmd.ENCRYPT }
           u := { rtr := false, rts := true } }, []) :=
  (result_frame_sent_at_most_once cipherId
      { c := { initClient with current_cmd := CurrentCmd.ENCRYPT }
        u := { rtr := false, rts := true } }).2 rfl rfl rfl

/-- C3: whenever the Complete stage's guard (processing_done && rts)
holds, its body sets rx_shadow_buffer_ready and tx_shadow_buffer_ready,
copies the chunk_size encrypted bytes into the outbound message
buffer, and transmits a RawData result frame whose chunk_no,
base_address and size are exactly those of current_chunk, the chunk
that was encrypted. -/
theorem complete_stage_result_frame (s : CU)
    (h1 : s.c.epd.processing_done = true) (h2 : s.u.rts = true) :
    (completePhase s).1.c.epd.rx_shadow_buffer_ready = true ∧
      (completePhase s).1.c.epd.tx_shadow_buffer_ready = true ∧
      (completePhase s).1.c.tx_msg.data
          = s.c.tx_buffered.take s.c.current_chunk.chunk_size ∧
      (completePhase s).2
          = [Obs.completeRun,
             Obs.rawDataSent s.c.tx_msg.stat s.c.current_chunk.chunk_no
               s.c.current_chunk.base_addr s.c.current_chunk.chunk_size
               (s.c.tx_buffered.take s.c.current_chunk.chunk_size)]
            ++ (if s.c.current_chunk.is_last then [Obs.drained] else []) := by
  simp [completePhase, h1, h2, send_raw_data, uart_write_packet]

/-- C3 witness: Complete applied to a concrete state holding an
encrypted 4-byte chunk number 2 destined for base address 4096. -/
theorem complete_stage_result_frame_w :
    (completePhase
        { c := { initClient with
                   epd := { rx_ready := false, processing_done := true
                            rx_shadow_buffer_ready := false
                            tx_shadow_buffer_ready := false }
                   current_chunk := { chunk_no := 2, base_addr := 4096
                                      chunk_size := 4, is_last := false
                                      data := [1, 2, 3, 4] }
                   tx_buffered := [5, 6, 7, 8] }
          u := { rtr := false, rts := true } }).1.c.epd.rx_shadow_buffer_ready
        = true ∧
      (completePhase
        { c := { initClient with
                   epd := { rx_ready := false, processing_done := true
                            rx_shadow_buffer_ready := false
                            tx_shadow_buffer_ready := false }
                   current_chunk := { chunk_no := 2, base_addr := 4096
                                      chunk_size := 4, is_last := false
                                      data := [1, 2, 3, 4] }
                   tx_buffered := [5, 6, 7, 8] }
          u := { rtr := false, rts := true } }).2
        = [Obs.completeRun,
           Obs.rawDataSent RDStatus.FIRST_CHUNK 2 4096 4 [5, 6, 7, 8]] := by
  have h := complete_stage_result_frame
    { c := { initClient with
               epd := { rx_ready := false, processing_done := true
                        rx_shadow_buffer_ready := false
                        tx_shadow_buffer_ready := false }
               current_chunk := { chunk_no := 2, base_addr := 4096
                                  chunk_size := 4, is_last := false
                                  data := [1, 2, 3, 4] }
               tx_buffered := [5, 6, 7, 8] }
      u := { rtr := false, rts := true } } rfl rfl
  exact ⟨h.1, by rw [h.2.2.2]; rfl⟩

/-- C4: a successfully decoded EncryptionParams message makes the
dispatcher install the rounds and the four key words into the session
state — the two 64-bit halves being keys[1]·2^32 + keys[0] and
keys[3]·2^32 + keys[2], i.e. the concatenations of words (1,2) and
(3,4) — transmit exactly one Ack, and set current_cmd = NONE. -/
theorem encryption_params_install (s : CU) (k0 k1 k2 k3 r : Nat)
    (h0 : k0 < 2 ^ 32) (h1 : k1 < 2 ^ 32) (h2 : k2 < 2 ^ 32) (h3 : k3 < 2 ^ 32) :
    (client_parse_msg (Decoded.encParams ⟨[k0, k1, k2, k3], r⟩) s).2
        = [Obs.ackSent] ∧
      (client_parse_msg (Decoded.encParams ⟨[k0, k1, k2, k3], r⟩) s).1.c.current_cmd
        = CurrentCmd.NONE ∧
      (client_parse_msg (Decoded.encParams ⟨[k0, k1, k2, k3], r⟩) s).1.c.enc_p
        = { encryption_keys := [k0, k1, k2, k3], encryption_rounds := r } ∧
      (client_parse_msg (Decoded.encParams ⟨[k0, k1, k2, k3], r⟩) s).1.c.encst.s_nbrounds
        = r ∧
      (client_parse_msg (Decoded.encParams ⟨[k0, k1, k2, k3], r⟩) s).1.c.encst.s_keys0
        = k1 * 2 ^ 32 + k0 ∧
      (client_parse_msg (Decoded.encParams ⟨[k0, k1, k2, k3], r⟩) s).1.c.encst.s_keys1
        = k3 * 2 ^ 32 + k2 := by
  simp [client_parse_msg, send_ack, uart_write_packet,
        encrypt_set_keys_and_round, List.getD]
  exact ⟨concat_keys_eq h1 h0, concat_keys_eq h3 h2⟩

/-- C4 witness: keys [1,2,3,4] with 10 rounds install the key halves
2·2^32 + 1 and 4·2^32 + 3 and produce one Ack. -/
theorem encryption_params_install_w :
    (client_parse_msg (Decoded.encParams ⟨[1, 2, 3, 4], 10⟩)
        { c := initClient, u := { rtr := true, rts := true } }).2
        = [Obs.ackSent] ∧
      (client_parse_msg (Decoded.encParams ⟨[1, 2, 3, 4], 10⟩)
        { c := initClient, u := { rtr := true, rts := true } }).1.c.encst.s_keys0
        = 8589934593 ∧
      (client_parse_msg (Decoded.encParams ⟨[1, 2, 3, 4], 10⟩)
        { c := initClient, u := { rtr := true, rts := true } }).1.c.encst.s_keys1
        = 17179869187 := by
  have h := encryption_params_install
    { c := initClient, u := { rtr := true, rts := true } } 1 2 3 4 10
    (by norm_num) (by norm_num) (by norm_num) (by norm_num)
  exact ⟨h.1, by rw [h.2.2.2.2.1]; norm_num, by rw [h.2.2.2.2.2]; norm_num⟩

/-- Whether an observation is one of the three stage-body markers. -/
def isStageMarker : Obs → Bool
  | .stageRun => true
  | .dispatchRun => true
  | .completeRun => true
  | _ => false

/-- The stage-body markers of an observation list, in order. -/
def stageMarkers (l : List Obs) : List Obs := l.filter isStageMarker

/-- The Stage body runs at most once per tick. -/
theorem stageMarkers_stagePhase (s : CU) :
    stageMarkers (stagePhase s).2 = []
      ∨ stageMarkers (stagePhase s).2 = [Obs.stageRun] := by
  unfold stagePhase
  split
  · right; rfl
  · left; rfl

/-- The Dispatch body runs at most once per tick. -/
theorem stageMarkers_dispatchPhase (E : Cipher) (s : CU) :
    stageMarkers (dispatchPhase E s).2 = []
      ∨ stageMarkers (dispatchPhase E s).2 = [Obs.dispatchRun] := by
  unfold dispatchPhase
  split
  · right; rfl
  · left; rfl

/-- The Complete body runs at most once per tick. -/
theorem stageMarkers_completePhase (s : CU) :
    stageMarkers (completePhase s).2 = []
      ∨ stageMarkers (completePhase s).2 = [Obs.completeRun] := by
  unfold completePhase
  split
  · right
    unfold stageMarkers send_raw_data
    split <;> rfl
  · left; rfl

/-- C1 (amended): on every tick the stage bodies are evaluated in the
fixed order Stage, Dispatch-to-hardware, Complete and each body runs
at most once, but more than one body may run in a single tick: the
stage markers of any tick form an ordered sublist of
[stageRun, dispatchRun, completeRun]. -/
theorem tick_stage_bodies_ordered (E : Cipher) (s : CU) :
    (stageMarkers (process_encryption E s).2).Sublist
      [Obs.stageRun, Obs.dispatchRun, Obs.completeRun] := by
  unfold process_encryption
  split
  · simp [stageMarkers]
  · simp only [stageMarkers, List.filter_append]
    rcases stageMarkers_stagePhase s with h1 | h1 <;>
      rcases stageMarkers_dispatchPhase E (stagePhase s).1 with h2 | h2 <;>
      rcases stageMarkers_completePhase
        (dispatchPhase E (stagePhase s).1).1 with h3 | h3 <;>
      simp only [stageMarkers] at h1 h2 h3 <;>
      rw [h1, h2, h3] <;> decide

/-- C1 counterexample: a reachable state (chunk rawB decoded and
pending while both shadow buffers are free and rts is up) in which a
single tick runs the Stage body and the Dispatch body — two of the
three stage bodies, not at most one. -/
theorem tick_runs_two_stage_bodies :
    Reachable cipherId sysC1 ∧
      sysC1.rx.command_ready = false ∧
      (process_encryption cipherId { c := sysC1.c, u := sysC1.u }).2
          = [Obs.stageRun, Obs.ackSent, Obs.dispatchRun] ∧
      stageMarkers (process_encryption cipherId { c := sysC1.c, u := sysC1.u }).2
          = [Obs.stageRun, Obs.dispatchRun] := by
  exact ⟨reachable_runEvs cipherId evsC1 initSys Reachable.refl,
         by decide, by decide, by decide⟩

/-- C2 counterexample: a frame whose length header 5000 exceeds the
receive buffer capacity I_STREAM_SIZE_BYTES = 4128 is not dropped: the
framing layer arms a 5000-byte receive into the fixed buffer and, once
the payload transfer completes, marks the frame ready for the codec
(command_ready). -/
theorem oversized_frame_not_dropped :
    I_STREAM_SIZE_BYTES = 4128 ∧
      (runEvs cipherId [Ev.rxc, Ev.hu 5000, Ev.rxc, Ev.hu 0] initSys).2
          = [Obs.armReceive 5000, Obs.armReceive 4] ∧
      (runEvs cipherId [Ev.rxc, Ev.hu 5000, Ev.rxc, Ev.hu 0] initSys).1.rx.command_ready
          = true ∧
      (runEvs cipherId [Ev.rxc, Ev.hu 5000, Ev.rxc, Ev.hu 0] initSys).1.rx.xfer_len
          = 5000 ∧
      I_STREAM_SIZE_BYTES < 5000 := by
  exact ⟨by decide, by decide, by decide, by decide, by decide⟩

/-- C2 (amended): the framing layer performs no capacity check. For
every received length header n — including n greater than the buffer
capacity — it arms a receive of exactly n bytes, and when that payload
transfer completes it delivers the frame to the codec (command_ready)
and re-arms a 4-byte receive, reinterpreting the next 4 bytes as a
fresh length header; it never transmits anything, so no NACK is
sent. -/
theorem framing_no_capacity_check (n : Nat) (s : Sys)
    (h1 : s.rx.dma_complete = true) (h2 : s.rx.receiving_len = true) :
    (handle_uart n s).2 = [Obs.armReceive n] ∧
      (handle_uart n s).1.rx.xfer_len = n ∧
      (handle_uart n s).1.rx.receiving_pb = true ∧
      (handle_uart 0 (rxCpltCallback (handle_uart n s).1)).2 = [Obs.armReceive 4] ∧
      (handle_uart 0 (rxCpltCallback (handle_uart n s).1)).1.rx.command_ready = true ∧
      (handle_uart 0 (rxCpltCallback (handle_uart n s).1)).1.rx.receiving_len = true := by
  simp [handle_uart, rxCpltCallback, h1, h2]

/-- C2 amended witness: header 5000 from the startup state. -/
theorem framing_no_capacity_check_w :
    (handle_uart 5000 (rxCpltCallback initSys)).2 = [Obs.armReceive 5000] ∧
      (handle_uart 0 (rxCpltCallback (handle_uart 5000 (rxCpltCallback initSys)).1)).1.rx.command_ready
        = true :=
  ⟨(framing_no_capacity_check 5000 (rxCpltCallback initSys) rfl rfl).1,
   (framing_no_capacity_check 5000 (rxCpltCallback initSys) rfl rfl).2.2.2.2.1⟩

/-- C8 counterexample: after the LAST_CHUNK frame rawL completes the
pipeline and the drained signal is emitted, a further RawData frame
rawM — with no EncryptionParams and no reset in between — is still
accepted: it is parsed, staged (stageRun) and dispatched to the
hardware cipher (dispatchRun). -/
theorem raw_data_accepted_after_last_chunk :
    Reachable cipherId sysC8 ∧
      (runEvs cipherId evsC8a initSys).2
          = [Obs.armReceive 10, Obs.armReceive 4, Obs.stageRun, Obs.ackSent,
             Obs.dispatchRun, Obs.completeRun,
             Obs.rawDataSent RDStatus.FIRST_CHUNK 2 4096 4 [1, 2, 3, 4],
             Obs.drained] ∧
      (runEvs cipherId evsC8b sysC8).2
          = [Obs.armReceive 12, Obs.armReceive 4, Obs.stageRun, Obs.ackSent,
             Obs.dispatchRun] := by
  exact ⟨reachable_runEvs cipherId evsC8a initSys Reachable.refl,
         by decide, by decide⟩

/-- C8 (amended): when the Complete stage finishes a chunk marked
is_last it emits the pipeline-drained signal (status LEDs off), but
the relay keeps accepting RawData: every decoded RawData message —
whatever the current state — sets rx_ready and current_cmd = ENCRYPT
so that the chunk is staged and encrypted, with no new
EncryptionParams or reset required. -/
theorem drained_signal_and_continued_acceptance :
    (∀ s : CU, s.c.epd.processing_done = true → s.u.rts = true →
        s.c.current_chunk.is_last = true → Obs.drained ∈ (completePhase s).2) ∧
      (∀ (s : CU) (r : RawDataMsg),
        (client_parse_msg (Decoded.rawData r) s).1.c.epd.rx_ready = true ∧
          (client_parse_msg (Decoded.rawData r) s).1.c.current_cmd
            = CurrentCmd.ENCRYPT ∧
          (client_parse_msg (Decoded.rawData r) s).2 = []) := by
  constructor
  · intro s h1 h2 h3
    simp [completePhase, h1, h2, h3, send_raw_data, uart_write_packet]
  · intro s r
    simp [client_parse_msg]

/-- C8 amended witness: the drained signal fires on a concrete
last-chunk Complete, and rawM is accepted from the startup state. -/
theorem drained_signal_and_continued_acceptance_w :
    Obs.drained ∈ (completePhase
        { c := { initClient with
                   epd := { rx_ready := false, processing_done := true
                            rx_shadow_buffer_ready := false
                            tx_shadow_buffer_ready := false }
                   current_chunk := { chunk_no := 2, base_addr := 4096
                                      chunk_size := 4, is_last := true
                                      data := [1, 2, 3, 4] } }
          u := { rtr := false, rts := true } }).2 ∧
      (client_parse_msg (Decoded.rawData rawM)
          { c := initClient, u := { rtr := true, rts := true } }).1.c.epd.rx_ready
        = true :=
  ⟨drained_signal_and_continued_acceptance.1
      { c := { initClient with
                 epd := { rx_ready := false, processing_done := true
                          rx_shadow_buffer_ready := false
                          tx_shadow_buffer_ready := false }
                 current_chunk := { chunk_no := 2, base_addr := 4096
                                    chunk_size := 4, is_last := true
                                    data := [1, 2, 3, 4] } }
        u := { rtr := false, rts := true } } rfl rfl rfl,
   (drained_signal_and_continued_acceptance.2
      { c := initClient, u := { rtr := true, rts := true } } rawM).1⟩

/-- The Dispatch body never changes rtr. -/
theorem dispatchPhase_rtr (E : Cipher) (s : CU) :
    (dispatchPhase E s).1.u.rtr = s.u.rtr := by
  unfold dispatchPhase send_ack uart_write_packet
  split <;> rfl

/-- The Dispatch body never changes rx_ready. -/
theorem dispatchPhase_rx_ready (E : Cipher) (s : CU) :
    (dispatchPhase E s).1.c.epd.rx_ready = s.c.epd.rx_ready := by
  unfold dispatchPhase
  split <;> rfl

/-- The Complete body never changes rtr. -/
theorem completePhase_rtr (s : CU) :
    (completePhase s).1.u.rtr = s.u.rtr := by
  unfold completePhase send_raw_data uart_write_packet
  split <;> rfl

/-- The Complete body never changes rx_ready. -/
theorem completePhase_rx_ready (s : CU) :
    (completePhase s).1.c.epd.rx_ready = s.c.epd.rx_ready := by
  unfold completePhase send_raw_data
  split <;> rfl

/-- One pipeline tick preserves the property that rtr is only up once
the decoded message has been consumed (rx_ready down): the only place
the tick raises rtr is the Stage body, which clears rx_ready at the
same time. -/
theorem tick_rtr_inv (E : Cipher) (s : CU)
    (h : s.u.rtr = true → s.c.epd.rx_ready = false) :
    (process_encryption E s).1.u.rtr = true →
      (process_encryption E s).1.c.epd.rx_ready = false := by
  unfold process_encryption
  split
  · exact h
  · intro hr
    rw [completePhase_rtr, dispatchPhase_rtr] at hr
    rw [completePhase_rx_ready, dispatchPhase_rx_ready]
    revert hr
    unfold stagePhase
    split
    · intro _; rfl
    · exact h

/-- client_parse_msg never changes rtr. -/
theorem client_parse_msg_rtr (d : Decoded) (s : CU) :
    (client_parse_msg d s).1.u.rtr = s.u.rtr := by
  cases d <;> rfl

/-- Invariant of every reachable relay state: whenever rtr is
asserted, the last decoded message has already been staged (rx_ready
is down) and no unparsed frame is pending (command_ready is down). -/
theorem reachable_rtr_inv (E : Cipher) (s : Sys) (h : Reachable E s) :
    s.u.rtr = true → s.c.epd.rx_ready = false ∧ s.rx.command_ready = false := by
  induction h with
  | refl => exact fun _ => ⟨rfl, rfl⟩
  | step e h ih =>
      cases e with
      | rxc => simp [stepEv, rxCpltCallback]
      | txc => simpa [stepEv, txCpltCallback] using ih
      | hu header =>
          simp only [stepEv, handle_uart]
          split
          · split
            · simp
            · split
              · simp
              · simpa using ih
          · simpa using ih
      | hc d =>
          simp only [stepEv, handle_commands]
          split
          · rename_i hcr
            dsimp only
            intro hr
            refine ⟨?_, rfl⟩
            refine tick_rtr_inv E _ ?_ hr
            intro hr1
            rw [client_parse_msg_rtr] at hr1
            exact absurd (ih hr1).2 (by simp [hcr])
          · rename_i hcr
            dsimp only
            intro hr
            refine ⟨?_, by simpa using hcr⟩
            refine tick_rtr_inv E _ ?_ hr
            intro hr1
            exact (ih hr1).1

/-- C6 counterexample: a reachable state in which a new receive is
about to be armed — a DMA completion is pending and the very next
handle_uart poll arms the next receive — while rtr is asserted and
rx_shadow_buffer_ready is false (the Stage body of the tick that
staged chunk rawB raised rtr and cleared rx_shadow_buffer_ready after
the length header of the next frame had already completed). -/
theorem rtr_high_at_receive_arming :
    Reachable cipherId sysC6 ∧
      sysC6.u.rtr = true ∧
      sysC6.c.epd.rx_shadow_buffer_ready = false ∧
      sysC6.rx.dma_complete = true ∧
      sysC6.rx.receiving_len = true ∧
      (handle_uart 4 sysC6).2 = [Obs.armReceive 4] := by
  exact ⟨reachable_runEvs cipherId evsC6 initSys Reachable.refl,
         by decide, by decide, by decide, by decide, by decide⟩

/-- C6 (amended): rtr can be asserted while rx_shadow_buffer_ready is
false immediately prior to a new receive being armed; what every
reachable state does guarantee whenever rtr is asserted — at arming
points in particular — is that the decoded message has already been
staged out of the receive path (rx_ready is false) and no unparsed
frame is pending (command_ready is false). -/
theorem rtr_asserted_only_after_staging (E : Cipher) (s : Sys)
    (h : Reachable E s) (hr : s.u.rtr = true) :
    s.c.epd.rx_ready = false ∧ s.rx.command_ready = false :=
  reachable_rtr_inv E s h hr

/-- C6 amended witness: the startup state has rtr asserted, rx_ready
clear and command_ready clear. -/
theorem rtr_asserted_only_after_staging_w :
    initSys.c.epd.rx_ready = false ∧ initSys.rx.command_ready = false :=
  rtr_asserted_only_after_staging cipherId initSys Reachable.refl rfl

end WeightsEncryption
